import Mathlib

/-!
Shallow embedding of the client-record CRUD service (source file
src/unnamed/part_000, the file-backed variant with centralized error
middleware, which the specification designates as the intended target).

The TypeScript interfaces IPerson, IAddress and IClient flatten to a
single structure; optional TS fields become Option fields. Machine
numbers in the source are JS numbers holding small nonnegative integers
(record ids), embedded as Nat.
-/

/-- The IClient record: id, email from IClient, name, cpf, rg from
IPerson, cep, street, neighborhood, city, state from IAddress. -/
structure IClient where
  id : Nat
  email : String
  name : String
  cpf : String
  rg : Option String
  cep : String
  street : Option String
  neighborhood : Option String
  city : Option String
  state : Option String
deriving Repr, DecidableEq

/-- Omit of IClient without the id field: the payload type of
UserRepository.create (TS Omit of IClient excluding id). -/
structure NewClient where
  email : String
  name : String
  cpf : String
  rg : Option String
  cep : String
  street : Option String
  neighborhood : Option String
  city : Option String
  state : Option String
deriving Repr, DecidableEq

/-- TS Partial of IClient: every field optional, the payload type of
UserRepository.update. A field set to none is absent from the payload;
note the TS type includes the id field. -/
structure ClientPatch where
  id : Option Nat
  email : Option String
  name : Option String
  cpf : Option String
  rg : Option String
  cep : Option String
  street : Option String
  neighborhood : Option String
  city : Option String
  state : Option String
deriving Repr, DecidableEq

/-- The empty partial payload: no field supplied. -/
def emptyPatch : ClientPatch :=
  { id := none, email := none, name := none, cpf := none, rg := none,
    cep := none, street := none, neighborhood := none, city := none,
    state := none }

/-- The TS object spread in update: each field present in the
patch replaces the stored one, absent fields keep the stored value. -/
def mergeClient (u : IClient) (d : ClientPatch) : IClient :=
  { id := d.id.getD u.id
    email := d.email.getD u.email
    name := d.name.getD u.name
    cpf := d.cpf.getD u.cpf
    rg := match d.rg with | some s => some s | none => u.rg
    cep := d.cep.getD u.cep
    street := match d.street with | some s => some s | none => u.street
    neighborhood := match d.neighborhood with | some s => some s | none => u.neighborhood
    city := match d.city with | some s => some s | none => u.city
    state := match d.state with | some s => some s | none => u.state }

namespace UserRepository

/-- The id picked by create: the id of the last element of the
collection plus one. TS source: ((this.users.slice(-1)[0]?.id) ?? 0) + 1
where slice(-1)[0] is the last element or undefined on the empty array. -/
def createId (users : List IClient) : Nat :=
  (match users.getLast? with
   | some u => u.id
   | none => 0) + 1

/-- UserRepository.create: builds the new record from the payload and
the fresh id, pushes it at the end and returns it. The saveToFile call
always happens on this path. -/
def create (users : List IClient) (user : NewClient) : IClient × List IClient :=
  let newUser : IClient :=
    { id := createId users
      email := user.email
      name := user.name
      cpf := user.cpf
      rg := user.rg
      cep := user.cep
      street := user.street
      neighborhood := user.neighborhood
      city := user.city
      state := user.state }
  (newUser, users ++ [newUser])

/-- UserRepository.getById: this.users.find(u => u.id === id). -/
def getById (users : List IClient) (id0 : Nat) : Option IClient :=
  users.find? (fun u => u.id == id0)

/-- UserRepository.update: findIndex by id; -1 gives null and no write;
otherwise the spread merge replaces the element in place and the merged
record is returned. The inner none branch mirrors the ?? null guard on
this.users[index] and is unreachable when findIndex succeeds. -/
def update (users : List IClient) (id0 : Nat) (data : ClientPatch) :
    Option IClient × List IClient :=
  match users.findIdx? (fun u => u.id == id0) with
  | none => (none, users)
  | some index =>
    match users[index]? with
    | none => (none, users)
    | some u =>
      let merged := mergeClient u data
      (some merged, users.set index merged)

/-- UserRepository.delete: findIndex by id; -1 gives null with no
saveToFile call; otherwise splice removes the record, saveToFile runs,
and the removed record is returned. The Bool component records whether
saveToFile was invoked. -/
def delete (users : List IClient) (id0 : Nat) :
    Option IClient × List IClient × Bool :=
  match users.findIdx? (fun u => u.id == id0) with
  | none => (none, users, false)
  | some index => (users[index]?, users.eraseIdx index, true)

end UserRepository

/-! ## JSON values

JSON.stringify and JSON.parse act on the collection through this value
type; booleans never occur in the persisted data. -/

inductive Json where
  | null
  | str (s : String)
  | num (n : Nat)
  | arr (elems : List Json)
  | obj (fields : List (String × Json))
deriving Repr

/-- Key lookup in a JSON object field list: first binding wins, as for
JS property access on parsed JSON. -/
def lookupField : List (String × Json) → String → Option Json
  | [], _ => none
  | (k, v) :: rest, key => if k = key then some v else lookupField rest key

/-- Key lookup on a JSON value; none on non-objects. -/
def Json.lookup : Json → String → Option Json
  | Json.obj fields, key => lookupField fields key
  | _, _ => none

/-! ## External validators

The two checking libraries (validation-br and the zod email rule) are
not part of this repository; they are modelled from the spec. -/

/-- Modelled from the spec: the validation-br isCPF checksum validator
is external to this repository. The spec requires taxId to pass the
checksum validation rule for the applicable national ID format, which
for CPF is: eleven decimal digits (mask characters ignored), not all
identical, whose last two digits are the mod-11 check digits of the
first nine. -/
def cpfDigits (s : String) : List Nat :=
  (s.toList.filter Char.isDigit).map (fun c => c.toNat - 48)

/-- Weighted digit sum for the CPF check digits, first weight given. -/
def cpfWeightedSum : List Nat → Nat → Nat
  | [], _ => 0
  | d :: ds, w => d * w + cpfWeightedSum ds (w - 1)

/-- One CPF check digit from the leading digits and the start weight. -/
def cpfCheckDigit (ds : List Nat) (startWeight : Nat) : Nat :=
  let r := cpfWeightedSum ds startWeight % 11
  if r < 2 then 0 else 11 - r

/-- Modelled from the spec: the external tax-ID checksum validator. -/
def isCPF (s : String) : Bool :=
  let ds := cpfDigits s
  ds.length == 11
    && !(ds.all (fun d => d == ds.headD 0))
    && cpfCheckDigit (ds.take 9) 10 == ds.getD 9 0
    && cpfCheckDigit (ds.take 10) 11 == ds.getD 10 0

/-- Modelled from the spec: the email-shape rule of the schema library
is external code. The spec only requires that email match an
email-address shape: one @ separating a nonempty local part from a
nonempty domain that contains a dot. -/
def emailShape (s : String) : Bool :=
  let cs := s.toList
  let localPart := cs.takeWhile (fun c => c != '@')
  match cs.dropWhile (fun c => c != '@') with
  | '@' :: domain =>
    !localPart.isEmpty && !domain.isEmpty
      && domain.contains '.' && !domain.contains '@'
  | _ => false

/-! ## Zod schema

createUserSchema from the source: name min 3, email shape, cpf
validated by isCPF, cep exactly length 8, the rest optional strings.
Absent required fields get the standard Required issue. -/

/-- Rule for name: z.string().min(3). JS string length is embedded as
String.length. -/
def nameRule (s : String) : List String :=
  if s.length < 3 then ["Nome deve ter ao menos 3 letras"] else []

/-- Rule for email: z.string().email(). -/
def emailRule (s : String) : List String :=
  if emailShape s then [] else ["Formato de email inválido"]

/-- Rule for cpf: z.string().refine(isCPF). -/
def cpfRule (s : String) : List String :=
  if isCPF s then [] else ["CPF inválido"]

/-- Rule for cep: z.string().length(8). The source checks the length
only; the characters are unconstrained. -/
def cepRule (s : String) : List String :=
  if s.length = 8 then [] else ["CEP deve conter 8 dígitos"]

/-- A required string field: absent gives the Required issue, present
runs the field rule. -/
def requiredField (v : Option String) (rule : String → List String) : List String :=
  match v with
  | none => ["Required"]
  | some s => rule s

/-- The per-field error map of createUserSchema on a payload, in the
shape of zod flatten().fieldErrors: only fields with at least one
issue appear. Optional string fields never produce issues here because
the payload embedding already types them as strings. -/
def createSchemaErrors (b : ClientPatch) : List (String × List String) :=
  [("name", requiredField b.name nameRule),
   ("email", requiredField b.email emailRule),
   ("cpf", requiredField b.cpf cpfRule),
   ("cep", requiredField b.cep cepRule)].filter (fun p => !p.2.isEmpty)

/-- An optional string field of the partial update schema: an absent
field raises no issue, a present one runs the field rule. -/
def optionalField (v : Option String) (rule : String → List String) : List String :=
  match v with
  | none => []
  | some s => rule s

/-- The per-field error map of updateUserSchema, which the source
builds as createUserSchema.partial(): the same field rules with every
field optional. -/
def updateSchemaErrors (b : ClientPatch) : List (String × List String) :=
  [("name", optionalField b.name nameRule),
   ("email", optionalField b.email emailRule),
   ("cpf", optionalField b.cpf cpfRule),
   ("cep", optionalField b.cep cepRule)].filter (fun p => !p.2.isEmpty)

/-! ## Errors, middleware and routes -/

/-- A value thrown inside a handler and passed to next: either the
custom AppError with its status code, or any other error (for example
one thrown by the cep-promise client). -/
inductive ThrownError where
  | app (message : String) (statusCode : Nat)
  | other (message : String)
deriving Repr, DecidableEq

/-- An HTTP response: status code and JSON body. -/
structure HttpResponse where
  status : Nat
  body : Json
deriving Repr

/-- The global error middleware of the source: an AppError instance is
answered with its own status code and message; anything else becomes a
generic 500. -/
def errorMiddleware : ThrownError → HttpResponse
  | ThrownError.app m c =>
    { status := c, body := Json.obj [("status", Json.str "error"), ("message", Json.str m)] }
  | ThrownError.other _ =>
    { status := 500,
      body := Json.obj [("status", Json.str "error"), ("message", Json.str "Internal Server Error")] }

/-- The cast of the validated request body to Omit of IClient without
id, as done by the typed POST handler. Required fields are present
whenever validation passed, so the defaults are never observed on the
success path. -/
def patchToNew (b : ClientPatch) : NewClient :=
  { email := b.email.getD ""
    name := b.name.getD ""
    cpf := b.cpf.getD ""
    rg := b.rg
    cep := b.cep.getD ""
    street := b.street
    neighborhood := b.neighborhood
    city := b.city
    state := b.state }

/-- GET /users/isCPF/:id: look the record up, throw AppError 404 when
absent (caught and passed to the error middleware), otherwise send the
validity message. Default send status is 200. -/
def isCPFRoute (users : List IClient) (id0 : Nat) :
    HttpResponse × List IClient :=
  match UserRepository.getById users id0 with
  | none => (errorMiddleware (ThrownError.app "Usuário não encontrado" 404), users)
  | some user =>
    ({ status := 200,
       body := Json.obj
         [("message", Json.str (if isCPF user.cpf then "cpf válido" else "cpf inválido"))] },
     users)

/-- The external cep-promise lookup: resolves a postal code to address
data or rejects with an error message. It is a parameter of the route,
being an external network service. -/
def CepLookup : Type := String → Except String Json

/-- GET /users/isCEP/:id: look the record up, throw AppError 404 when
absent; call the external lookup on the stored cep inside try. Any
rejection is caught and handed to next, so the error middleware sees a
non-AppError value and answers the generic 500. -/
def isCEPRoute (users : List IClient) (lookup : CepLookup) (id0 : Nat) :
    HttpResponse × List IClient :=
  match UserRepository.getById users id0 with
  | none => (errorMiddleware (ThrownError.app "Usuário não encontrado" 404), users)
  | some user =>
    match lookup user.cep with
    | Except.ok addressData =>
      ({ status := 200,
         body := Json.obj
           [("message", Json.str "User's CEP is valid."),
            ("cep", Json.str user.cep),
            ("address", addressData)] },
       users)
    | Except.error e => (errorMiddleware (ThrownError.other e), users)

/-! ## Persistence

saveToFile writes JSON.stringify(this.users) and init reads the file
back through JSON.parse cast to IClient array. -/

/-- One optional field of the serialized record: JSON.stringify omits
properties holding undefined. -/
def encodeOpt (key : String) : Option String → List (String × Json)
  | some s => [(key, Json.str s)]
  | none => []

/-- JSON.stringify of one record. -/
def encodeClient (u : IClient) : Json :=
  Json.obj
    ([("id", Json.num u.id), ("email", Json.str u.email),
      ("name", Json.str u.name), ("cpf", Json.str u.cpf)]
      ++ encodeOpt "rg" u.rg
      ++ [("cep", Json.str u.cep)]
      ++ encodeOpt "street" u.street
      ++ encodeOpt "neighborhood" u.neighborhood
      ++ encodeOpt "city" u.city
      ++ encodeOpt "state" u.state)

/-- JSON.stringify of the whole collection: an array in order. -/
def encodeClients (users : List IClient) : Json :=
  Json.arr (users.map encodeClient)

/-- POST /users: validateBody(createUserSchema) runs first; a zod
failure makes it call next with AppError Invalid request data 400,
which the error middleware serializes; only the field error list is
dropped on that path. On success the handler creates the record and
answers 201 with it. -/
def postUsers (users : List IClient) (body : ClientPatch) :
    HttpResponse × List IClient :=
  if (createSchemaErrors body).isEmpty then
    let r := UserRepository.create users (patchToNew body)
    ({ status := 201, body := encodeClient r.fst }, r.snd)
  else
    (errorMiddleware (ThrownError.app "Invalid request data" 400), users)

/-- PUT /users/:id: validateBody(updateUserSchema) runs first; a zod
failure makes it call next with AppError Invalid request data 400,
answered by the error middleware exactly as for POST. On success the
handler calls update with the raw body; a null result throws AppError
404, otherwise the updated record is answered with 200. -/
def putUsers (users : List IClient) (id0 : Nat) (body : ClientPatch) :
    HttpResponse × List IClient :=
  if (updateSchemaErrors body).isEmpty then
    match UserRepository.update users id0 body with
    | (none, users2) =>
      (errorMiddleware (ThrownError.app "Usuário não encontrado" 404), users2)
    | (some updated, users2) =>
      ({ status := 200, body := encodeClient updated }, users2)
  else
    (errorMiddleware (ThrownError.app "Invalid request data" 400), users)

/-- Read a string property of a parsed record. -/
def getStrField (fields : List (String × Json)) (key : String) : Option String :=
  match lookupField fields key with
  | some (Json.str s) => some s
  | _ => none

/-- Read the numeric id property of a parsed record. -/
def getNumField (fields : List (String × Json)) (key : String) : Option Nat :=
  match lookupField fields key with
  | some (Json.num n) => some n
  | _ => none

/-- Read an optional string property: an absent key is a legitimate
absent field. -/
def getOptStrField (fields : List (String × Json)) (key : String) :
    Option (Option String) :=
  match lookupField fields key with
  | none => some none
  | some (Json.str s) => some (some s)
  | some _ => none

/-- Reading one record back from parsed JSON. -/
def decodeClient : Json → Option IClient
  | Json.obj fields => do
    let id ← getNumField fields "id"
    let email ← getStrField fields "email"
    let name ← getStrField fields "name"
    let cpf ← getStrField fields "cpf"
    let rg ← getOptStrField fields "rg"
    let cep ← getStrField fields "cep"
    let street ← getOptStrField fields "street"
    let neighborhood ← getOptStrField fields "neighborhood"
    let city ← getOptStrField fields "city"
    let state ← getOptStrField fields "state"
    pure { id := id, email := email, name := name, cpf := cpf, rg := rg,
           cep := cep, street := street, neighborhood := neighborhood,
           city := city, state := state }
  | _ => none

/-- Reading the whole collection back from parsed JSON. -/
def decodeClients : Json → Option (List IClient)
  | Json.arr elems => elems.mapM decodeClient
  | _ => none

/-- UserRepository.init: the stored argument is the parsed content of
the persisted file, none when the file is missing or its content is not
JSON; in the catch branch (and when the stored value is not a record
array) the seed collection is installed instead. Files written by
saveToFile always decode, so for them only the first branch runs. -/
def UserRepository.init (stored : Option Json) (seed : List IClient) :
    List IClient :=
  match stored with
  | none => seed
  | some j =>
    match decodeClients j with
    | some us => us
    | none => seed

/-! ## Mutation sequences -/

/-- One mutating repository call, for stating properties of collections
reachable through the public operations. -/
inductive RepoOp where
  | create (u : NewClient)
  | update (id0 : Nat) (p : ClientPatch)
  | delete (id0 : Nat)

/-- The collection after one repository call. -/
def applyOp (users : List IClient) : RepoOp → List IClient
  | RepoOp.create u => (UserRepository.create users u).snd
  | RepoOp.update id0 p => (UserRepository.update users id0 p).snd
  | RepoOp.delete id0 => (UserRepository.delete users id0).snd.fst

/-- The collection after a sequence of repository calls. -/
def runOps (start : List IClient) (ops : List RepoOp) : List IClient :=
  ops.foldl applyOp start

/-! ## Spec-side definitions

These two definitions transcribe the wording of the specification, to
be compared with the source definitions above. -/

/-- Spec wording for create: id is max(existing ids, 0) + 1, so this is
the maximum id of the collection (0 when empty). -/
def maxIdSpec (users : List IClient) : Nat :=
  users.foldr (fun u acc => max u.id acc) 0

/-- Spec wording for the postalCode rule: a string of exactly 8
digits. -/
def postalCodeSpec (s : String) : Bool :=
  s.length = 8 && s.toList.all Char.isDigit

/-- The ids of the collection, in collection order. -/
def ids (users : List IClient) : List Nat :=
  users.map IClient.id

/-- The ids of the collection are strictly increasing in collection
order. The seed collection has this shape, create appends a strictly
larger id and delete removes one, so the collections these operations
produce all have it. -/
def IdsIncreasing (users : List IClient) : Prop :=
  List.Pairwise (· < ·) (ids users)

/-- All ids of the collection are pairwise distinct. -/
def idsNodup (users : List IClient) : Prop :=
  (ids users).Nodup

instance (users : List IClient) : Decidable (IdsIncreasing users) :=
  inferInstanceAs (Decidable (List.Pairwise (fun a b => a < b) (ids users)))

instance (users : List IClient) : Decidable (idsNodup users) :=
  inferInstanceAs (Decidable (List.Nodup (ids users)))

/-! ## Concrete fixtures for counterexamples and witnesses -/

/-- A record with id 2. -/
def clientA : IClient :=
  { id := 2, email := "ana@example.com", name := "Ana", cpf := "52998224725",
    rg := none, cep := "11111111", street := none, neighborhood := none,
    city := none, state := none }

/-- A record with id 1. -/
def clientB : IClient :=
  { id := 1, email := "bea@example.com", name := "Bea", cpf := "52998224725",
    rg := some "111111111", cep := "33333333", street := none,
    neighborhood := none, city := none, state := none }

/-- A concrete create payload. -/
def payload0 : NewClient :=
  { email := "pat@example.com", name := "Pat", cpf := "52998224725",
    rg := none, cep := "22222222", street := none, neighborhood := none,
    city := none, state := none }

/-- A partial update payload that supplies only the id field. -/
def patch99 : ClientPatch :=
  { emptyPatch with id := some 99 }

/-- The invalid payload from the spec test: name too short, email
malformed, taxId invalid, postalCode not 8 characters. -/
def badPayload : ClientPatch :=
  { emptyPatch with name := some "Al", email := some "bad",
                    cpf := some "000", cep := some "123" }

/-- A lookup oracle standing for an external service that rejects every
postal code. -/
def failLookup : CepLookup :=
  fun _ => Except.error "request timed out"

/-! ## Helper lemmas -/

lemma set_getElem?_self {α : Type} (l : List α) (i : Nat) (a : α)
    (h : l[i]? = some a) : l.set i a = l := by
  induction l generalizing i with
  | nil => simp at h
  | cons x t ih =>
    cases i with
    | zero => simp at h; subst h; rfl
    | succ n =>
      simp at h
      simp [List.set, ih n h]

lemma mem_le_foldr_max {l : List Nat} {x : Nat} (h : x ∈ l) :
    x ≤ l.foldr max 0 := by
  induction l with
  | nil => simp at h
  | cons y t ih =>
    rcases List.mem_cons.mp h with rfl | hx
    · exact le_max_left _ _
    · exact le_trans (ih hx) (le_max_right _ _)

lemma maxIdSpec_eq_foldr (users : List IClient) :
    maxIdSpec users = (ids users).foldr max 0 := by
  induction users with
  | nil => rfl
  | cons u t ih => simp [maxIdSpec, ids] at ih ⊢; simp [ih]

lemma mem_le_maxIdSpec {users : List IClient} {u : IClient} (h : u ∈ users) :
    u.id ≤ maxIdSpec users := by
  rw [maxIdSpec_eq_foldr]
  exact mem_le_foldr_max (List.mem_map_of_mem IClient.id h)

lemma createId_cons_cons (a b : IClient) (l : List IClient) :
    UserRepository.createId (a :: b :: l) = UserRepository.createId (b :: l) := by
  simp [UserRepository.createId, List.getLast?_cons_cons]

lemma createId_eq_max {users : List IClient} (h : IdsIncreasing users) :
    UserRepository.createId users = maxIdSpec users + 1 := by
  induction users with
  | nil => rfl
  | cons u t ih =>
    cases t with
    | nil => simp [UserRepository.createId, maxIdSpec]
    | cons v rest =>
      have h' : IdsIncreasing (v :: rest) := by
        have := (List.pairwise_cons.mp h).2
        exact this
      have huv : u.id < v.id := by
        have := (List.pairwise_cons.mp h).1
        exact this v.id (by simp [ids])
      have hle : u.id ≤ maxIdSpec (v :: rest) := by
        have : v.id ≤ maxIdSpec (v :: rest) := by
          simp [maxIdSpec]
        omega
      rw [createId_cons_cons, ih h']
      have : maxIdSpec (u :: v :: rest) = max u.id (maxIdSpec (v :: rest)) := rfl
      rw [this, max_eq_right hle]

lemma mem_ids_lt_createId {users : List IClient} (h : IdsIncreasing users)
    {x : Nat} (hx : x ∈ ids users) : x < UserRepository.createId users := by
  rw [createId_eq_max h]
  rcases List.mem_map.mp hx with ⟨u, hu, rfl⟩
  have := mem_le_maxIdSpec hu
  omega

lemma create_snd_eq (users : List IClient) (u : NewClient) :
    (UserRepository.create users u).snd =
      users ++ [(UserRepository.create users u).fst] := rfl

lemma create_fst_id (users : List IClient) (u : NewClient) :
    (UserRepository.create users u).fst.id = UserRepository.createId users := rfl

lemma mergeClient_empty (u : IClient) : mergeClient u emptyPatch = u := rfl

lemma decode_encode_client (u : IClient) :
    decodeClient (encodeClient u) = some u := by
  cases u with
  | mk id email name cpf rg cep street neighborhood city state =>
    cases rg <;> cases street <;> cases neighborhood <;> cases city <;>
      cases state <;> rfl

lemma decode_encode_clients (users : List IClient) :
    decodeClients (encodeClients users) = some users := by
  have : ∀ l : List IClient, (l.map encodeClient).mapM decodeClient = some l := by
    intro l
    induction l with
    | nil => rfl
    | cons u t ih =>
      simp only [List.map_cons, List.mapM_cons, decode_encode_client, ih]
      rfl
  simpa [decodeClients, encodeClients] using this users

lemma create_preserves_increasing {users : List IClient} (h : IdsIncreasing users)
    (u : NewClient) : IdsIncreasing (UserRepository.create users u).snd := by
  rw [create_snd_eq]
  unfold IdsIncreasing ids at h ⊢
  rw [List.map_append, List.pairwise_append]
  refine ⟨h, List.pairwise_singleton _ _, ?_⟩
  intro a ha b hb
  simp only [List.map_cons, List.map_nil, List.mem_singleton] at hb
  subst hb
  exact mem_ids_lt_createId h ha

lemma delete_preserves_increasing {users : List IClient} (h : IdsIncreasing users)
    (id0 : Nat) : IdsIncreasing (UserRepository.delete users id0).snd.fst := by
  unfold UserRepository.delete
  cases hidx : users.findIdx? (fun u => u.id == id0) with
  | none => exact h
  | some index =>
    simp only
    exact List.Pairwise.sublist
      (List.Sublist.map IClient.id (List.eraseIdx_sublist users index)) h

lemma update_ids_of_id_none {users : List IClient} {p : ClientPatch}
    (hp : p.id = none) (id0 : Nat) :
    ids (UserRepository.update users id0 p).snd = ids users := by
  cases hidx : users.findIdx? (fun u => u.id == id0) with
  | none => simp [UserRepository.update, hidx]
  | some index =>
    cases hget : users[index]? with
    | none => simp [UserRepository.update, hidx, hget]
    | some u =>
      simp only [UserRepository.update, hidx, hget, ids, List.map_set]
      have hid : (mergeClient u p).id = u.id := by simp [mergeClient, hp]
      rw [hid]
      apply set_getElem?_self
      rw [List.getElem?_map, hget]
      rfl

/-! ## Claim theorems -/

/-- C1 counterexample: the claim states that create assigns an id equal
to one more than the previous maximum id for every collection state. On
the source, create takes the id of the LAST record plus one; on the
collection [clientA, clientB] (ids 2, 1) it assigns 2, not max + 1 = 3. -/
theorem C1_create_id_counterexample :
    (UserRepository.create [clientA, clientB] payload0).fst.id = 2 ∧
    maxIdSpec [clientA, clientB] + 1 = 3 ∧
    (UserRepository.create [clientA, clientB] payload0).fst.id ≠
      maxIdSpec [clientA, clientB] + 1 := by
  decide

/-- C1 (amended): create assigns an id equal to one more than the id of
the last record of the collection, or 1 if the collection was empty;
this coincides with one more than the maximum id whenever the ids are
strictly increasing in collection order; the collection grows by
exactly one record, appended at the end. -/
theorem C1_create_id_amended (users : List IClient) (u : NewClient) :
    (users = [] → (UserRepository.create users u).fst.id = 1) ∧
    (∀ lastRecord, users.getLast? = some lastRecord →
      (UserRepository.create users u).fst.id = lastRecord.id + 1) ∧
    (UserRepository.create users u).snd.length = users.length + 1 ∧
    (UserRepository.create users u).snd =
      users ++ [(UserRepository.create users u).fst] ∧
    (IdsIncreasing users →
      (UserRepository.create users u).fst.id = maxIdSpec users + 1) := by
  refine ⟨?_, ?_, ?_, rfl, ?_⟩
  · rintro rfl; rfl
  · intro lastRecord hlast
    simp [create_fst_id, UserRepository.createId, hlast]
  · rw [create_snd_eq]; simp
  · intro h
    rw [create_fst_id, createId_eq_max h]

/-- C1 witness: the amended statement evaluated on concrete inputs. -/
theorem C1_create_id_amended_witness :
    (UserRepository.create [] payload0).fst.id = 1 ∧
    (UserRepository.create [clientB, clientA] payload0).fst.id = clientA.id + 1 ∧
    (UserRepository.create [clientB, clientA] payload0).fst.id =
      maxIdSpec [clientB, clientA] + 1 := by
  refine ⟨(C1_create_id_amended [] payload0).1 rfl,
          (C1_create_id_amended [clientB, clientA] payload0).2.1 clientA rfl,
          (C1_create_id_amended [clientB, clientA] payload0).2.2.2.2 (by decide)⟩

/-- C2 counterexample: the claim states the id always remains identical
under update. The Partial payload type includes id and the spread
copies a supplied id over the stored one: updating the record with id 1
by the payload supplying only id 99 yields a record with id 99. -/
theorem C2_update_frame_counterexample :
    (UserRepository.update [clientB] 1 patch99).fst.map IClient.id = some 99 ∧
    clientB.id = 1 ∧
    (UserRepository.update [clientB] 1 patch99).fst.map IClient.id ≠
      some clientB.id := by
  decide

/-- C2 (amended): update changes only the fields supplied in the
payload: the record found by id is replaced by the spread merge, every
other position of the collection is untouched, and each field the
payload does not supply, the id included, keeps its pre-update value.
The source does not make the id immutable: a payload supplying an id
overwrites it. -/
theorem C2_update_frame_amended (users : List IClient) (id0 : Nat)
    (p : ClientPatch) (index : Nat) (u : IClient)
    (hidx : users.findIdx? (fun v => v.id == id0) = some index)
    (hget : users[index]? = some u) :
    (UserRepository.update users id0 p).fst = some (mergeClient u p) ∧
    (UserRepository.update users id0 p).snd = users.set index (mergeClient u p) ∧
    (∀ j, j ≠ index → (UserRepository.update users id0 p).snd[j]? = users[j]?) ∧
    (p.id = none → (mergeClient u p).id = u.id) ∧
    (p.email = none → (mergeClient u p).email = u.email) ∧
    (p.name = none → (mergeClient u p).name = u.name) ∧
    (p.cpf = none → (mergeClient u p).cpf = u.cpf) ∧
    (p.rg = none → (mergeClient u p).rg = u.rg) ∧
    (p.cep = none → (mergeClient u p).cep = u.cep) ∧
    (p.street = none → (mergeClient u p).street = u.street) ∧
    (p.neighborhood = none → (mergeClient u p).neighborhood = u.neighborhood) ∧
    (p.city = none → (mergeClient u p).city = u.city) ∧
    (p.state = none → (mergeClient u p).state = u.state) := by
  have h1 : UserRepository.update users id0 p =
      (some (mergeClient u p), users.set index (mergeClient u p)) := by
    simp [UserRepository.update, hidx, hget]
  refine ⟨by rw [h1], by rw [h1], ?_, ?_, ?_, ?_, ?_, ?_, ?_, ?_, ?_, ?_, ?_⟩
  · intro j hj
    rw [h1]
    exact List.getElem?_set_ne (Ne.symm hj)
  all_goals intro hnone
  all_goals simp [mergeClient, hnone]

/-- C2 witness: the amended statement evaluated on concrete inputs. -/
theorem C2_update_frame_amended_witness :
    (UserRepository.update [clientB] 1 emptyPatch).fst =
      some (mergeClient clientB emptyPatch) ∧
    (mergeClient clientB emptyPatch).id = clientB.id := by
  have h := C2_update_frame_amended [clientB] 1 emptyPatch 0 clientB rfl rfl
  exact ⟨h.1, h.2.2.2.1 rfl⟩

/-- C3 counterexample: the claim states every operation preserves
distinctness of ids from any collection with distinct ids. False:
create appends the id of the last record plus one, so on the distinct
collection [clientA, clientB] (ids 2, 1) it appends a second record
with id 2 and the ids are no longer distinct. -/
theorem C3_unique_ids_counterexample :
    idsNodup [clientA, clientB] ∧
    ¬ idsNodup (UserRepository.create [clientA, clientB] payload0).snd := by
  decide

/-- C3 (amended): on collections whose ids are strictly increasing in
collection order (the shape of the seed, maintained by create and
delete), create and delete preserve the strictly increasing shape,
update with a payload that does not supply an id leaves the id list
unchanged, and strictly increasing ids are in particular pairwise
distinct. -/
theorem C3_unique_ids_amended (users : List IClient) (id0 : Nat)
    (p : ClientPatch) (u : NewClient) :
    (IdsIncreasing users → IdsIncreasing (UserRepository.create users u).snd) ∧
    (IdsIncreasing users →
      IdsIncreasing (UserRepository.delete users id0).snd.fst) ∧
    (p.id = none → ids (UserRepository.update users id0 p).snd = ids users) ∧
    (IdsIncreasing users → idsNodup users) := by
  refine ⟨fun h => create_preserves_increasing h u,
          fun h => delete_preserves_increasing h id0,
          fun hp => update_ids_of_id_none hp id0,
          fun h => List.Pairwise.imp (fun hab => Nat.ne_of_lt hab) h⟩

/-- C3 witness: the amended statement evaluated on concrete inputs. -/
theorem C3_unique_ids_amended_witness :
    IdsIncreasing (UserRepository.create [clientB, clientA] payload0).snd ∧
    IdsIncreasing (UserRepository.delete [clientB, clientA] 1).snd.fst ∧
    ids (UserRepository.update [clientB, clientA] 1 emptyPatch).snd =
      ids [clientB, clientA] ∧
    idsNodup [clientB, clientA] := by
  have h := C3_unique_ids_amended [clientB, clientA] 1 emptyPatch payload0
  exact ⟨h.1 (by decide), h.2.1 (by decide), h.2.2.1 rfl, h.2.2.2 (by decide)⟩

/-- C4 counterexample: the claim asserts schema failures are answered
400 with a body holding both a message and the per-field error map. In
this source validateBody forwards AppError Invalid request data to the
error middleware, whose body carries status and message only: the
response to the spec test payload has no errors key. -/
theorem C4_validation_response_counterexample :
    (postUsers [] badPayload).fst.status = 400 ∧
    (postUsers [] badPayload).fst.body.lookup "errors" = none := by
  exact ⟨rfl, rfl⟩

/-- C4 (amended): for every collection and every payload that violates
a schema rule, the POST /users route (create schema) and the PUT
/users/:id route (partial update schema) respond 400 with the error
middleware body, which holds status and message only and in particular
no per-field error map, and leave the collection unchanged; the spec
test payload records field errors for exactly the four required fields
name, email, cpf and cep under both schemas. -/
theorem C4_validation_response_amended (users : List IClient) (id0 : Nat)
    (b : ClientPatch) :
    ((createSchemaErrors b).isEmpty = false →
      postUsers users b =
        ({ status := 400,
           body := Json.obj [("status", Json.str "error"),
                             ("message", Json.str "Invalid request data")] },
         users)) ∧
    ((updateSchemaErrors b).isEmpty = false →
      putUsers users id0 b =
        ({ status := 400,
           body := Json.obj [("status", Json.str "error"),
                             ("message", Json.str "Invalid request data")] },
         users)) ∧
    (Json.obj [("status", Json.str "error"),
               ("message", Json.str "Invalid request data")]).lookup "errors"
      = none ∧
    (createSchemaErrors badPayload).map Prod.fst =
      ["name", "email", "cpf", "cep"] ∧
    (updateSchemaErrors badPayload).map Prod.fst =
      ["name", "email", "cpf", "cep"] := by
  refine ⟨fun h => ?_, fun h => ?_, rfl, by decide, by decide⟩
  · simp [postUsers, h, errorMiddleware]
  · simp [putUsers, h, errorMiddleware]

/-- C4 witness: both routes evaluated on the concrete spec test
payload. -/
theorem C4_validation_response_amended_witness :
    postUsers [] badPayload =
      ({ status := 400,
         body := Json.obj [("status", Json.str "error"),
                           ("message", Json.str "Invalid request data")] },
       []) ∧
    putUsers [] 1 badPayload =
      ({ status := 400,
         body := Json.obj [("status", Json.str "error"),
                           ("message", Json.str "Invalid request data")] },
       []) := by
  have h := C4_validation_response_amended [] 1 badPayload
  exact ⟨h.1 (by decide), h.2.1 (by decide)⟩

/-- C5 counterexample: the claim asserts a failed postal-code lookup is
answered 400 with the original code and the upstream message. In this
source the route passes the caught rejection to next, the error
middleware does not recognize it as an AppError and answers the generic
500 carrying neither the code nor the upstream text. -/
theorem C5_cep_failure_counterexample :
    (isCEPRoute [clientB] failLookup 1).fst.status = 500 ∧
    (isCEPRoute [clientB] failLookup 1).fst.body.lookup "cep" = none ∧
    (isCEPRoute [clientB] failLookup 1).fst.body.lookup "error" = none := by
  exact ⟨rfl, rfl, rfl⟩

/-- C5 (amended): whenever the record exists and the external lookup
rejects its postal code, the route catches the rejection and hands it
to the error middleware, which answers the generic 500 body; the
collection is left unchanged and the raw upstream failure never reaches
the client, but the original postal code and the upstream message text
are not returned either. -/
theorem C5_cep_failure_amended (users : List IClient) (lookup : CepLookup)
    (id0 : Nat) (u : IClient) (e : String)
    (hu : UserRepository.getById users id0 = some u)
    (he : lookup u.cep = Except.error e) :
    isCEPRoute users lookup id0 =
      ({ status := 500,
         body := Json.obj [("status", Json.str "error"),
                           ("message", Json.str "Internal Server Error")] },
       users) := by
  simp [isCEPRoute, hu, he, errorMiddleware]

/-- C5 witness: the amended statement evaluated on concrete inputs. -/
theorem C5_cep_failure_amended_witness :
    isCEPRoute [clientB] failLookup 1 =
      ({ status := 500,
         body := Json.obj [("status", Json.str "error"),
                           ("message", Json.str "Internal Server Error")] },
       [clientB]) :=
  C5_cep_failure_amended [clientB] failLookup 1 clientB "request timed out"
    rfl rfl

/-- C6 counterexample: the claim states the schema accepts postalCode
exactly when it is a string of 8 digits. The source rule is
z.string().length(8): only the length is checked, so the 8-letter
string abcdefgh is accepted although it contains no digit, against the
spec predicate of exactly 8 digits. -/
theorem C6_postal_code_counterexample :
    requiredField (some "abcdefgh") cepRule = [] ∧
    postalCodeSpec "abcdefgh" = false := by
  decide

/-- C6 (amended): the schema accepts a supplied postalCode exactly when
it is a string of exactly 8 characters; the characters themselves are
unconstrained, so digits are not required. -/
theorem C6_postal_code_amended (s : String) :
    requiredField (some s) cepRule = [] ↔ s.length = 8 := by
  simp only [requiredField, cepRule]
  split <;> simp_all

/-- C7: deleting an id with no matching record returns null, leaves the
collection exactly as it was and performs no saveToFile call. -/
theorem C7_delete_missing (users : List IClient) (id0 : Nat)
    (h : ∀ u ∈ users, u.id ≠ id0) :
    UserRepository.delete users id0 = (none, users, false) := by
  have hidx : users.findIdx? (fun u => u.id == id0) = none :=
    List.findIdx?_eq_none_iff.mpr (fun x hx => by simpa using h x hx)
  simp [UserRepository.delete, hidx]

/-- C7 witness: the statement evaluated on a concrete missing id. -/
theorem C7_delete_missing_witness :
    UserRepository.delete [clientB] 7 = (none, [clientB], false) :=
  C7_delete_missing [clientB] 7 (by decide)

/-- C8: after any sequence of create, update and delete calls from any
starting collection, writing the collection out as JSON and
re-initializing the repository from the parsed file restores the
identical collection, order and field values included. -/
theorem C8_persistence_roundtrip (seed start : List IClient)
    (ops : List RepoOp) :
    UserRepository.init (some (encodeClients (runOps start ops))) seed =
      runOps start ops := by
  simp [UserRepository.init, decode_encode_clients]

/-- C9: the two validation routes answer from the stored record and
never mutate the collection, whatever the outcome of the record lookup
and of the external postal-code service. -/
theorem C9_validation_routes_pure (users : List IClient) (lookup : CepLookup)
    (id0 : Nat) :
    (isCPFRoute users id0).snd = users ∧
    (isCEPRoute users lookup id0).snd = users := by
  constructor
  · cases h : UserRepository.getById users id0 <;> simp [isCPFRoute, h]
  · cases h : UserRepository.getById users id0 with
    | none => simp [isCEPRoute, h]
    | some u => cases hl : lookup u.cep <;> simp [isCEPRoute, h, hl]

/-- C10: update with the empty partial payload returns the stored
record unchanged and leaves the collection identical: the empty partial
is an identity for the merge. -/
theorem C10_update_empty_identity (users : List IClient) (id0 : Nat)
    (index : Nat) (u : IClient)
    (hidx : users.findIdx? (fun v => v.id == id0) = some index)
    (hget : users[index]? = some u) :
    UserRepository.update users id0 emptyPatch = (some u, users) := by
  simp only [UserRepository.update, hidx, hget, mergeClient_empty]
  rw [set_getElem?_self users index u hget]

/-- C10 witness: the statement evaluated on a concrete collection. -/
theorem C10_update_empty_identity_witness :
    UserRepository.update [clientB] 1 emptyPatch = (some clientB, [clientB]) :=
  C10_update_empty_identity [clientB] 1 0 clientB rfl rfl
